import Mathlib

/-!
Verification development for the floatperms permission engine.

The JavaScript sources embedded here:
- `src/main.js` — registry (`register` / `unregister`) and top-level helpers;
- `src/validator/validator.js` — the fluent builder (proxy-wrapped `Validator`);
- `src/matcher/matcher.js` — the evaluator (`matcher`, `extractParams`,
  `matchTrueValidator`).

JavaScript values are modelled by the inductive `Value`; association lists
model objects (first-match lookup, insertion-order preserving assignment,
just like JS property tables).  Fallible code returns `Except String α`,
the `String` being the thrown error's message.  Promise settlement order in
the concurrent branch is an explicit `List Nat` schedule parameter: it
records the order in which launched promises settle, which is the only
source of run-to-run variation for deterministic capabilities.
-/

/-- A JavaScript value, as far as the engine observes them.  Object and array
literals are fresh references; reference equality between two distinct
literals is always false (see `jsStrictEq`). -/
inductive Value where
  | vUndefined
  | vNull
  | vBool (b : Bool)
  | vNum (n : Int)
  | vStr (s : String)
  | vObj (fields : List (String × Value))
  | vArr (elems : List Value)

/-- `typeof v` (note `typeof null === 'object'`). -/
def Value.jsTypeof : Value → String
  | .vUndefined => "undefined"
  | .vNull => "object"
  | .vBool _ => "boolean"
  | .vNum _ => "number"
  | .vStr _ => "string"
  | .vObj _ => "object"
  | .vArr _ => "object"

/-- JS truthiness. -/
def Value.truthy : Value → Bool
  | .vUndefined => false
  | .vNull => false
  | .vBool b => b
  | .vNum n => n != 0
  | .vStr s => s.length != 0
  | .vObj _ => true
  | .vArr _ => true

def Value.isUndef : Value → Bool
  | .vUndefined => true
  | _ => false

mutual

/-- String interpolation of a value (`${v}` in a template literal). -/
def Value.jsToString : Value → String
  | .vUndefined => "undefined"
  | .vNull => "null"
  | .vBool b => if b then "true" else "false"
  | .vNum n => toString n
  | .vStr s => s
  | .vObj _ => "[object Object]"
  | .vArr es => jsToStringList es

/-- `Array.prototype.toString` joins the stringified elements with commas. -/
def jsToStringList : List Value → String
  | [] => ""
  | [v] => Value.jsToString v
  | v :: vs => Value.jsToString v ++ "," ++ jsToStringList vs

end

/-- JS strict equality `===`.  Primitives compare by value; two object or
array literals in this model are distinct references, hence `false`.
(The engine only ever compares strings with `===`.) -/
def jsStrictEq : Value → Value → Bool
  | .vUndefined, .vUndefined => true
  | .vNull, .vNull => true
  | .vBool a, .vBool b => a == b
  | .vNum a, .vNum b => a == b
  | .vStr a, .vStr b => a == b
  | _, _ => false

/-- `p` is a prefix of `s` (the source's `String.prototype.startsWith`),
phrased over the character lists so that it evaluates inside the kernel. -/
def strStarts (p s : String) : Bool := p.data.isPrefixOf s.data

/-- Split a character list at every occurrence of `c` (no separator found
gives the single original chunk, like `String.prototype.split`). -/
def splitOnChar (c : Char) : List Char → List (List Char)
  | [] => [[]]
  | a :: as =>
    match splitOnChar c as with
    | [] => if a = c then [[], []] else [[a]]
    | g :: gs => if a = c then [] :: g :: gs else (a :: g) :: gs

/-- `s.split('.')` as the source calls it, kernel-evaluable. -/
def strSplitDot (s : String) : List String :=
  (splitOnChar '.' s.data).map (fun l => String.mk l)

/-- `s.substr(1)`, kernel-evaluable. -/
def strDrop1 (s : String) : String := String.mk (s.data.drop 1)

/-- First-match association-list lookup (a JS object has unique keys, so
first-match agrees with property access). -/
def aGet? {α : Type} : List (String × α) → String → Option α
  | [], _ => none
  | (k, v) :: fs, key => if k = key then some v else aGet? fs key

/-- Property read `obj[k]`, yielding `undefined` when the key is absent. -/
def jsGet (fs : List (String × Value)) (k : String) : Value :=
  match aGet? fs k with
  | some v => v
  | none => .vUndefined

/-- Property assignment `obj[k] = v`: updates in place when the key exists
(keeping key order), appends otherwise — exactly JS insertion-order
semantics. -/
def aSet {α : Type} (fs : List (String × α)) (key : String) (v : α) :
    List (String × α) :=
  if fs.any (fun p => p.1 = key) then
    fs.map (fun p => if p.1 = key then (key, v) else p)
  else
    fs ++ [(key, v)]

/-- `delete obj[k]`, keeping the order of the remaining keys. -/
def aRemove {α : Type} (fs : List (String × α)) (key : String) :
    List (String × α) :=
  fs.filter (fun p => ¬ (p.1 = key))

theorem aGet?_aSet_self {α : Type} (fs : List (String × α)) (k : String) (v : α) :
    aGet? (aSet fs k v) k = some v := by
  unfold aSet
  by_cases h : fs.any (fun p => p.1 = k) = true
  · rw [if_pos h]
    induction fs with
    | nil => simp at h
    | cons p fs ih =>
      simp only [List.any_cons, Bool.or_eq_true, decide_eq_true_eq] at h
      by_cases hp : p.1 = k
      · rw [List.map_cons, if_pos hp]
        simp [aGet?]
      · have h' : fs.any (fun p => p.1 = k) = true := by
          rcases h with h | h
          · exact absurd h hp
          · exact h
        rw [List.map_cons, if_neg hp]
        simpa [aGet?, hp] using ih h'
  · rw [if_neg h]
    induction fs with
    | nil => simp [aGet?]
    | cons p fs ih =>
      simp only [List.any_cons, Bool.or_eq_true, decide_eq_true_eq, not_or] at h
      simp only [List.cons_append, aGet?, if_neg h.1]
      exact ih (by simp [h.2])

theorem mem_aSet {α : Type} {fs : List (String × α)} {key : String} {v : α}
    {x : String × α} (hx : x ∈ aSet fs key v) : x ∈ fs ∨ x = (key, v) := by
  unfold aSet at hx
  by_cases h : fs.any (fun p => p.1 = key) = true
  · rw [if_pos h] at hx
    rcases List.mem_map.mp hx with ⟨y, hy, hxy⟩
    by_cases hk : y.1 = key
    · right; rw [if_pos hk] at hxy; exact hxy.symm
    · left; rw [if_neg hk] at hxy; exact hxy ▸ hy
  · rw [if_neg h] at hx
    simp only [List.mem_append, List.mem_singleton] at hx
    exact hx

/-! ## The request context and provider objects -/

/-- The frozen-able export map a provider populates through its lifecycle
hooks (`providerExports` in `extractParams`).  `Object.freeze` is observable
here through the `frozen` flag. -/
structure Exports where
  entries : List (String × Value)
  frozen : Bool

def freezeExports (e : Exports) : Exports := { e with frozen := true }

/-- The request context (a Sails/Express `req`).  `paramF` models the
`req.param(name)` capability, `cookies` the `req.cookies` map, `fields` the
request object's own traversable fields (used by `req.a.b` parameter paths),
and `permissions` the `req.permissions` slot the engine writes exports to
(`none` models the field being absent or not an object). -/
structure Req where
  paramF : String → Value
  cookies : List (String × Value)
  fields : List (String × Value)
  permissions : Option (List (String × Exports))

/-- A merged parameter definition (`{ name, value }` in `extractParams`). -/
structure ParamDef where
  name : String
  value : Value

/-- A member of a provider object that is a JS function.  One JS function can
be invoked in any of the three roles the engine uses functions in, so the
model records each behaviour: as a validation capability
(`call (params, req)`), as the `before` lifecycle hook (receiving and
possibly mutating the request, the unresolved definitions and the export
map), and as the `params` lifecycle hook (likewise, with resolved
parameters).  An `Except.error` is a rejected promise. -/
structure JSFunc where
  call : List (String × Value) → Req → Except String Value
  asBefore : Req → List ParamDef → Exports → Except String (Req × List ParamDef × Exports)
  asParams : Req → List (String × Value) → Exports → Except String (Req × List (String × Value) × Exports)

/-- A provider-object member: either callable or a plain value. -/
inductive Member where
  | func (f : JSFunc)
  | val (v : Value)

/-- A provider object, as an ordered member table (`Object.keys` order). -/
structure ProviderObj where
  members : List (String × Member)

def Member.isFunc : Member → Bool
  | .func _ => true
  | .val _ => false

/-- `provider._params`, guarded like the source:
`(provider._params && (typeof provider._params === 'object')) ? ... : {}`
(only a truthy plain object yields entries). -/
def ProviderObj.basePar (p : ProviderObj) : List (String × Value) :=
  match aGet? p.members "_params" with
  | some (.val (.vObj fs)) => fs
  | _ => []

/-- Truthiness of `provider._parallel`. -/
def ProviderObj.parallelFlag (p : ProviderObj) : Bool :=
  match aGet? p.members "_parallel" with
  | some (.val v) => v.truthy
  | some (.func _) => true
  | none => false

/-- `provider.before` when it is a function (`typeof ... === 'function'`). -/
def ProviderObj.beforeHook (p : ProviderObj) : Option JSFunc :=
  match aGet? p.members "before" with
  | some (.func f) => some f
  | _ => none

/-- `provider.params` when it is a function. -/
def ProviderObj.paramsHook (p : ProviderObj) : Option JSFunc :=
  match aGet? p.members "params" with
  | some (.func f) => some f
  | _ => none

/-! ## Parameter extraction (matcher.js, `extractParams` and its `extract`) -/

/-- `arr[k]` for an array: canonical numeric keys index the elements,
anything else is `undefined` (array methods and `length` are not modelled;
the engine never reaches them). -/
def arrGet (es : List Value) (k : String) : Value :=
  match k.toNat? with
  | some i => es.getD i .vUndefined
  | none => .vUndefined

/-- One step of the `pieces.reduce(...)` traversal in `extract`:
`(!acc || typeof acc !== 'object')` yields `undefined`, otherwise `acc[key]`
is read. -/
def pathStep (acc : Value) (key : String) : Value :=
  match acc with
  | .vObj fs => jsGet fs key
  | .vArr es => arrGet es key
  | _ => .vUndefined

/-- The `extract` helper of `extractParams` (matcher.js lines 78-109):
resolves a single merged parameter definition against the request. -/
def extract (req : Req) (d : ParamDef) : Except String Value :=
  match d.value with
  | .vObj fs =>
    -- `definition.value instanceof Object`: read the `value` field or throw.
    if fs.any (fun p => p.1 = "value") then .ok (jsGet fs "value")
    else .error ("Expected parameter definition value for \"" ++ d.name ++
      "\" to contain a \"value\" field, but instead it was not set.")
  | .vArr _ =>
    -- arrays are also `instanceof Object`; they have no `value` property.
    .error ("Expected parameter definition value for \"" ++ d.name ++
      "\" to contain a \"value\" field, but instead it was not set.")
  | .vStr s =>
    if strStarts "?" s then .ok (req.paramF (strDrop1 s))
    else if strStarts "$" s then .ok (jsGet req.cookies (strDrop1 s))
    else if ¬ strStarts "req." s then
      .error ("Expected parameter definition value for \"" ++ d.name ++
        "\" to start with one of '?', '$' or 'req.', but instead found: " ++ s)
    else
      -- split on '.', drop the leading 'req' piece, then safely traverse.
      .ok (((strSplitDot s).tail).foldl pathStep (Value.vObj req.fields))
  | v =>
    -- a number/boolean/null/undefined has no `.startsWith`: a TypeError.
    .error ("TypeError: definition.value.startsWith is not a function (" ++
      v.jsTypeof ++ ")")

/-- `extractParams` (matcher.js lines 72-148): merge overrides over the
provider defaults, run `before`, resolve every definition, run `params`,
then freeze the export map and bind it at `req.permissions[schemeName]`.
Returns the resolved parameters and the updated request. -/
def extractParams (req : Req) (overrideDefs : Value) (provider : ProviderObj)
    (schemeName : String) :
    Except String (List (String × Value) × Req) := do
  let overrides : List (String × Value) :=
    match overrideDefs with
    | .vObj fs => fs
    | _ => []   -- non-object (or falsy) overrides are replaced by `{}`
  let baseParams := provider.basePar
  -- merge: an override replaces the default unless it is `undefined`;
  -- names absent from the defaults are never consulted.
  let paramDefs : List ParamDef := baseParams.map (fun p =>
    let ov := jsGet overrides p.1
    ⟨p.1, if ov.isUndef then p.2 else ov⟩)
  -- (`.filter(p => p)` keeps every entry: each is a truthy object.)
  let exports0 : Exports := ⟨[], false⟩
  let (req1, defs1, ex1) ←
    match provider.beforeHook with
    | some f => f.asBefore req paramDefs exports0
    | none => Except.ok (req, paramDefs, exports0)
  let outParams ← defs1.foldlM (fun acc d => do
      let v ← extract req1 d
      pure (aSet acc d.name v)) ([] : List (String × Value))
  let (req2, out2, ex2) ←
    match provider.paramsHook with
    | some f => f.asParams req1 outParams ex1
    | none => Except.ok (req1, outParams, ex1)
  -- `if (!req.permissions || typeof ... !== 'object') req.permissions = {}`
  let permsOld := match req2.permissions with
    | some m => m
    | none => []
  let req3 := { req2 with
    permissions := some (aSet permsOld schemeName (freezeExports ex2)) }
  pure (out2, req3)

/-! ## The evaluator (matcher.js, `matchTrueValidator`) -/

/-- A registry entry as stored by `register` in main.js:
`{ name, validations, provider }`. -/
structure SchemeDef where
  name : String
  validations : List String
  provider : ProviderObj

/-- The process-wide `namespaces` store: namespace name → scheme name →
scheme definition. -/
def Namespaces : Type := List (String × List (String × SchemeDef))

/-- A compiled validator as produced by `Validator.compile()`
(`{ namespace, scheme, method, params, target }` plus `parallel` only when
`execParallel` is a boolean). -/
structure CompiledValidator where
  nspace : String
  scheme : String
  method : Value
  params : Value
  target : Value
  parallel : Option Bool

/-- A failed-validation record
(`{ name, explanation: typeof res !== 'boolean' ? res : undefined }`). -/
structure FailedValidation where
  name : String
  explanation : Value

/-- The evaluation result object. -/
structure MatchResult where
  hasPassed : Bool
  passedValidations : List String
  failedValidations : List FailedValidation
  thrownErrors : List String

/-- Target expansion (matcher.js lines 190-194): `'*'` entries are replaced
by the scheme's whole validation list (via `concat`, which also flattens an
array element one level), then duplicates are removed keeping first
occurrences (`filter((v, i, arr) => arr.indexOf(v) === i)`, `===`-based). -/
def expandTargets (es : List Value) (validations : List String) : List Value :=
  let expanded := es.foldl (fun acc v =>
    match v with
    | .vStr s => if s = "*" then acc ++ validations.map Value.vStr else acc ++ [.vStr s]
    | .vArr inner => acc ++ inner
    | w => acc ++ [w]) []
  expanded.foldl (fun acc v =>
    if acc.any (fun w => jsStrictEq w v) then acc else acc ++ [v]) []

/-- Outcome of the expression `scheme.provider[methodName](params, req)`:
either a synchronous TypeError (the member is not callable) or the settled
promise of the async call. -/
inductive CallOutcome where
  | syncThrow (e : String)
  | promise (r : Except String Value)

def callMember (prov : ProviderObj) (methodName : Value)
    (params : List (String × Value)) (req : Req) : CallOutcome :=
  match aGet? prov.members methodName.jsToString with
  | some (.func f) => .promise (f.call params req)
  | _ => .syncThrow ("TypeError: scheme.provider[" ++ methodName.jsToString ++
      "] is not a function")

/-- Sequence a list of settled promises: the fulfilment values in index
order, or the first rejection in index order. -/
def seqResults : List (Except String Value) → Except String (List Value)
  | [] => .ok []
  | .error e :: _ => .error e
  | .ok v :: rest =>
    match seqResults rest with
    | .ok vs => .ok (v :: vs)
    | .error e => .error e

/-- `Promise.all`: if every constituent fulfils, it fulfils with the values
in index order, whatever the settlement order; otherwise it rejects with the
reason of the first constituent to reject in settlement order (`sched` lists
promise indices in the order they settle). -/
def promiseAll (rs : List (Except String Value)) (sched : List Nat) :
    Except String (List Value) :=
  match sched.findSome? (fun i =>
      match rs.getD i (.ok .vUndefined) with
      | .error e => some e
      | .ok _ => none) with
  | some e => .error e
  | none => seqResults rs

/-- The promise-building `forEach` of the concurrent branch: each call is
launched in target order; a member that is not callable throws a synchronous
TypeError at its position, escaping the whole evaluation. -/
def buildPromises (prov : ProviderObj) (params : List (String × Value))
    (req : Req) : List Value → Except String (List (Except String Value))
  | [] => .ok []
  | t :: ts =>
    match callMember prov t params req with
    | .syncThrow e => .error e
    | .promise r =>
      match buildPromises prov params req ts with
      | .ok rest => .ok (r :: rest)
      | .error e => .error e

/-- The concurrent branch (matcher.js lines 203-212): launch every call while
building the promise array (a synchronous TypeError escapes uncaught), then
`try { testResults.push(...await Promise.all(promises)) } catch (e)
{ results.thrownErrors.push(e) }` — a rejection discards all fulfilments and
records exactly one reason. -/
def runParallelPhase (prov : ProviderObj) (targets : List Value)
    (params : List (String × Value)) (req : Req) (sched : List Nat) :
    Except String (List Value × List String) := do
  let promises ← buildPromises prov params req targets
  match promiseAll promises sched with
  | .ok vs => pure (vs, [])
  | .error e => pure ([], [e])

/-- The sequential branch (matcher.js lines 213-221): each call is awaited
inside its own `try`, so every thrown error is recorded and the remaining
targets still run; fulfilled results are appended in order. -/
def runSequentialPhase (prov : ProviderObj) (targets : List Value)
    (params : List (String × Value)) (req : Req) :
    List Value × List String :=
  targets.foldl (fun acc t =>
    match callMember prov t params req with
    | .syncThrow e => (acc.1, acc.2 ++ [e])
    | .promise (.ok v) => (acc.1 ++ [v], acc.2)
    | .promise (.error e) => (acc.1, acc.2 ++ [e])) ([], [])

/-- The qualified name reported for outcome `i`
(matcher.js line 225): the *namespace-qualified* scheme prefix (omitted for
`global`) followed by `targets[i]`. -/
def qualifiedName (nspace scheme : String) (t : Value) : String :=
  (if nspace = "global" then "" else nspace ++ ":") ++ scheme ++ ":" ++ t.jsToString

/-- Result attribution (matcher.js lines 224-233): `testResults.forEach((res,
i) => ...)` pairs outcome `i` with `targets[i]`; `res === true` goes to the
passed list and anything else to the failed list, non-boolean results carried
as the explanation. -/
def attributeResults (nspace scheme : String) (targets : List Value)
    (testResults : List Value) : List String × List FailedValidation :=
  testResults.enum.foldl (fun acc iv =>
    let nm := qualifiedName nspace scheme (targets.getD iv.1 .vUndefined)
    match iv.2 with
    | .vBool true => (acc.1 ++ [nm], acc.2)
    | .vBool false => (acc.1, acc.2 ++ [⟨nm, .vUndefined⟩])
    | r => (acc.1, acc.2 ++ [⟨nm, r⟩])) ([], [])

/-- The final `switch (validator.method)` (matcher.js lines 241-253).  The
source writes `case 'all', 'allOf':` and `case 'any', 'anyOf':` — in
JavaScript a case label is a single expression, and the comma operator
evaluates to its last operand, so these labels match only `'allOf'` and
`'anyOf'` respectively; `'all'` and `'any'` fall through to the default
branch and throw. -/
def switchMethod (method : Value) (targetCount passedCount failedCount : Nat) :
    Except String Bool :=
  match method with
  | .vStr "allOf" => .ok (passedCount = targetCount ∧ failedCount = 0 : Bool)
  | .vStr "anyOf" => .ok (0 < passedCount : Bool)
  | m => .error ("Invalid method type found for validator: \"" ++ m.jsToString ++
      "\". Expected one of: \"all\", \"any\", \"allOf\", or \"anyOf\".")

/-- `matchTrueValidator` (matcher.js lines 162-256): evaluation of a simple
compiled policy descriptor.  Returns the result object together with the
request (which the engine mutates by attaching the frozen export map). -/
def matchTrueValidator (nss : Namespaces) (sched : List Nat) (req : Req)
    (v : CompiledValidator) : Except String (MatchResult × Req) := do
  let es ← match v.target with
    | .vArr es => Except.ok es
    | t => Except.error ("Received malformed validator! Expected the `target` " ++
        "property to be an array but instead found: (" ++ t.jsTypeof ++ ") " ++
        t.jsToString)
  let nsMap ← match aGet? nss v.nspace with
    | some m => Except.ok m
    | none => Except.error ("Failed to located namespace for validator! " ++
        "Attempted to use namespace \"" ++ v.nspace ++ "\" which was not found " ++
        "in the registered namespace collection: " ++
        String.intercalate "," (nss.map Prod.fst))
  let sd ← match aGet? nsMap v.scheme with
    | some s => Except.ok s
    | none => Except.error ("Failed to locate scheme for validator! Could not " ++
        "find scheme \"" ++ v.scheme ++ "\" in namespace \"" ++ v.nspace ++
        "\". Schemes currently registered in this namespace: " ++
        String.intercalate "," (nsMap.map Prod.fst))
  let targets := expandTargets es sd.validations
  let (params, req1) ← extractParams req v.params sd.provider v.scheme
  -- (the resolved params object is frozen before use; freezing a plain
  -- value map is not otherwise observable here)
  let runPar := (v.parallel.getD false) || sd.provider.parallelFlag
  let (testResults, thrown) ←
    if runPar then runParallelPhase sd.provider targets params req1 sched
    else Except.ok (runSequentialPhase sd.provider targets params req1)
  let (passed, failed) := attributeResults v.nspace v.scheme targets testResults
  if thrown.length > 0 then
    pure (⟨false, passed, failed, thrown⟩, req1)
  else do
    let hp ← switchMethod v.method targets.length passed.length failed.length
    pure (⟨hp, passed, failed, thrown⟩, req1)

/-! ## The builder (validator.js) -/

/-- The state of a `Validator` instance.  `method` and `target` start as
`null`; `execParallel` starts `undefined` (`none`) and `compile` only emits a
`parallel` field when it is a boolean. -/
structure BuilderState where
  name : String
  nspace : String
  params : List (String × Value)
  finalized : Bool
  method : Value
  target : Value
  execParallel : Option Bool

/-- `Validator.create(schemeName, schemeNamespace)` — the fresh wrapped
state. -/
def createValidator (schemeName schemeNamespace : String) : BuilderState :=
  { name := schemeName
    nspace := schemeNamespace
    params := []
    finalized := false
    method := .vNull
    target := .vNull
    execParallel := none }

/-- The proxy's already-finalized guard message for a real method `m`. -/
def finalizedCallMsg (m : String) : String :=
  "Attempted to call method \"" ++ m ++ "\" of an already finalized " ++
    "validator. Only `.compile()` may be used at this point!"

/-- Proxy-dispatched call of `.all()`: the proxy throws when the underlying
validator is finalized, otherwise the method finalizes the chain with
`method = 'all'`, `target = '*'` (and freezes target and params). -/
def callAll (b : BuilderState) : Except String BuilderState :=
  if b.finalized then .error (finalizedCallMsg "all")
  else .ok { b with finalized := true, method := .vStr "all", target := .vStr "*" }

/-- Proxy-dispatched call of `.any()`. -/
def callAny (b : BuilderState) : Except String BuilderState :=
  if b.finalized then .error (finalizedCallMsg "any")
  else .ok { b with finalized := true, method := .vStr "any", target := .vStr "*" }

/-- Proxy-dispatched call of `.parallel()`: the proxy throws when finalized
(`parallel` is a real method, so it is guarded exactly like the terminal
methods), otherwise `execParallel` is set to `true`. -/
def callParallel (b : BuilderState) : Except String BuilderState :=
  if b.finalized then .error (finalizedCallMsg "parallel")
  else .ok { b with execParallel := some true }

/-- Proxy-dispatched parameter setter (validator.js `create`, the
non-function-property branch): called for a property `prop` that is not a
real method, with the raw argument list.  Checks, in source order: exactly
one argument; not finalized; the value is a string with one of the `'?'`,
`'$'`, `'req.'` starts.  On success the definition is stored and the proxy
is returned for chaining (here: the updated state). -/
def setParameter (b : BuilderState) (prop : String) (args : List Value) :
    Except String BuilderState :=
  if args.length ≠ 1 then
    .error ("Invalid argument list passed for validator parameter function \"" ++
      prop ++ "\". Found " ++ toString args.length ++ " parameters, but expected 1.")
  else if b.finalized then
    .error ("Attempted to set parameter \"" ++ prop ++ "\" of an already " ++
      "finalized validator. Only `.compile()` may be used at this point!")
  else
    match args.getD 0 .vUndefined with
    | .vStr s =>
      if ¬ strStarts "?" s ∧ ¬ strStarts "$" s ∧ ¬ strStarts "req." s then
        .error ("Attempted to set parameter definition \"" ++ prop ++
          "\" to an invalid string value. String-type parameter definitions " ++
          "must start with one of: '?', '$' or 'req.'")
      else .ok { b with params := aSet b.params prop (.vStr s) }
    | v =>
      .error ("Attempted to set parameter definition \"" ++ prop ++
        "\" to an invalid value! Expected a string, but instead found: (" ++
        v.jsTypeof ++ ") " ++ v.jsToString)

/-- `compile()` (always permitted by the proxy, also before finalization):
the data-only descriptor, with a `parallel` field only when `execParallel`
is a boolean. -/
def compileValidator (b : BuilderState) : CompiledValidator :=
  { nspace := b.nspace
    scheme := b.name
    method := b.method
    params := .vObj b.params
    target := b.target
    parallel := b.execParallel }

/-- The `matcher` entry point's branch for objects carrying a `compile`
function (matcher.js lines 33-35): such an object is a builder proxy, and
evaluation proceeds on its compiled descriptor. -/
def matcherOnBuilder (nss : Namespaces) (sched : List Nat) (req : Req)
    (b : BuilderState) : Except String (MatchResult × Req) :=
  matchTrueValidator nss sched req (compileValidator b)

/-! ## The registry (main.js, `register` / `unregister`) -/

/-- The reserved lifecycle names excluded from the derived validation list. -/
def reservedNames : List String := ["before", "after", "params", "error"]

/-- `Object.keys(provider)`. -/
def objKeys (p : ProviderObj) : List String := p.members.map Prod.fst

/-- `typeof provider[k] === 'function'`. -/
def memberIsFunc (p : ProviderObj) (k : String) : Bool :=
  match aGet? p.members k with
  | some m => m.isFunc
  | none => false

/-- The derived validation-name list (main.js lines 167-169): the keys whose
member is callable and whose name is not reserved. -/
def providerValidations (p : ProviderObj) : List String :=
  ((objKeys p).filter (fun k => memberIsFunc p k)).filter
    (fun k => ¬ reservedNames.contains k)

/-- Namespace-argument defaulting (`typeof !== 'string' || length === 0`
defaults to `'global'`); `none` models a non-string argument. -/
def normNS : Option String → String
  | some s => if s.length = 0 then "global" else s
  | none => "global"

/-- The `_params` validation loop of `register` (main.js lines 152-164):
returns the first offending entry's error, if any. -/
def checkParamEntries (name nspace : String) :
    List (String × Value) → Option String
  | [] => none
  | (k, .vStr s) :: rest =>
    if ¬ strStarts "?" s ∧ ¬ strStarts "$" s ∧ ¬ strStarts "req." s then
      some ("The provider definition \"" ++ name ++ "\" in namespace \"" ++
        nspace ++ "\" contains an invalid _params entry \"" ++ k ++
        "\". The string value must begin with one of '?', '$' or 'req.'")
    else checkParamEntries name nspace rest
  | (k, v) :: _ =>
    some ("The provider definition \"" ++ name ++ "\" in namespace \"" ++
      nspace ++ "\" contains an invalid _params entry \"" ++ k ++
      "\". Expected a string, but instead found: (" ++ v.jsTypeof ++ ") " ++
      v.jsToString)

/-- `register(provider, name, namespace)` (main.js lines 125-177), for a
proper provider object (the non-object guard throws before any mutation and
is not modelled further).  Returns the updated store and the thrown error's
message, if any.  Note `namespaces[namespace] || (namespaces[namespace] =
{})` creates the namespace entry even when a later check throws. -/
def register (nss : Namespaces) (p : ProviderObj) (name : String)
    (nspace0 : Option String) : Namespaces × Option String :=
  let nspace := normNS nspace0
  let ns := (aGet? nss nspace).getD []
  let nss1 := aSet nss nspace ns
  if (aGet? ns name).isSome then
    (nss1, some ("Attempted to register a provider under already registered " ++
      "name \"" ++ name ++ "\", in namespace \"" ++ nspace ++ "\"."))
  else
    match checkParamEntries name nspace p.basePar with
    | some e => (nss1, some e)
    | none =>
      (aSet nss1 nspace (aSet ns name ⟨name, providerValidations p, p⟩), none)

/-- `unregister(name, namespace)` (main.js lines 190-201): removes and
returns the matching definition; when the namespace itself is absent the
source deletes from a temporary `{}` and the store is untouched. -/
def unregister (nss : Namespaces) (name : String) (nspace0 : Option String) :
    Option SchemeDef × Namespaces :=
  let nspace := normNS nspace0
  match aGet? nss nspace with
  | none => (none, nss)
  | some ns => (aGet? ns name, aSet nss nspace (aRemove ns name))

/-- A registry operation, for reasoning about every reachable store. -/
inductive RegOp where
  | reg (p : ProviderObj) (name : String) (nspace : Option String)
  | unreg (name : String) (nspace : Option String)

def applyOp (nss : Namespaces) : RegOp → Namespaces
  | .reg p n ns => (register nss p n ns).1
  | .unreg n ns => (unregister nss n ns).2

def runOps (nss : Namespaces) (ops : List RegOp) : Namespaces :=
  ops.foldl applyOp nss

/-- The store at module load (main.js lines 8-10). -/
def initialNamespaces : Namespaces := [("global", [])]

/-- A stored scheme definition is well-formed when every listed validation
name is callable on its provider and is not a reserved lifecycle name. -/
def goodScheme (sd : SchemeDef) : Bool :=
  sd.validations.all (fun v =>
    !(reservedNames.contains v) && memberIsFunc sd.provider v)

/-- Every scheme stored anywhere in the namespace store is well-formed. -/
def goodNss (nss : Namespaces) : Bool :=
  nss.all (fun e => e.2.all (fun s => goodScheme s.2))

/-! ## The spec's description of parameter resolution (for refinement) -/

/-- Modelled from the spec's wording for field-path resolution: traverse the
remaining segments one by one; a traversable object yields its field (an
array its element), anything else makes the whole resolution an absent value
rather than an error. -/
def specTraverse : List String → Value → Value
  | [], acc => acc
  | k :: ks, .vObj fs => specTraverse ks (jsGet fs k)
  | k :: ks, .vArr es => specTraverse ks (arrGet es k)
  | _ :: _, _ => .vUndefined

/-- Modelled from the spec's resolution rules: a literal wrapper yields its
wrapped value; a `?`-string resolves through the context's parameter-lookup
capability; a `$`-string resolves from the cookie map; a field path is split
on `.`, its leading segment discarded, and the rest traversed from the
context root. -/
def resolveSpec (req : Req) (d : ParamDef) : Value :=
  match d.value with
  | .vObj fs => jsGet fs "value"
  | .vStr s =>
    if strStarts "?" s then req.paramF (strDrop1 s)
    else if strStarts "$" s then jsGet req.cookies (strDrop1 s)
    else specTraverse ((strSplitDot s).drop 1) (Value.vObj req.fields)
  | _ => .vUndefined

/-- The definition shapes the spec's resolution rules cover: a literal
wrapper carrying a `value` field, or a string in the prefix mini-language. -/
def wellFormedDefValue : Value → Bool
  | .vObj fs => fs.any (fun p => p.1 = "value")
  | .vStr s => strStarts "?" s || strStarts "$" s || strStarts "req." s
  | _ => false

/-! ## Concrete fixtures used by the claim instances -/

/-- A provider member that is only ever used as a validation capability; its
lifecycle-hook behaviours are inert. -/
def mkCap (f : List (String × Value) → Req → Except String Value) : JSFunc :=
  { call := f
    asBefore := fun r d e => .ok (r, d, e)
    asParams := fun r p e => .ok (r, p, e) }

/-- A bare request context. -/
def req0 : Req :=
  { paramF := fun _ => .vUndefined, cookies := [], fields := [], permissions := none }

/-- A provider with one always-passing capability, one always-true and two
always-throwing capabilities. -/
def provMix : ProviderObj :=
  ⟨[("isOk", .func (mkCap fun _ _ => .ok (.vBool true))),
    ("good", .func (mkCap fun _ _ => .ok (.vBool true))),
    ("bad", .func (mkCap fun _ _ => .error "boom")),
    ("bad2", .func (mkCap fun _ _ => .error "boom2"))]⟩

/-- The registered store holding `provMix` under the global scheme `s`
(exactly what `register(provMix, 's')` stores). -/
def nssMix : Namespaces :=
  [("global", [("s", ⟨"s", providerValidations provMix, provMix⟩)])]

/-- A provider with a single passing capability `chk`. -/
def provChk : ProviderObj :=
  ⟨[("chk", .func (mkCap fun _ _ => .ok (.vBool true)))]⟩

/-- Two same-named schemes registered in two different namespaces. -/
def nssTwin : Namespaces :=
  [("ns1", [("user", ⟨"user", providerValidations provChk, provChk⟩)]),
   ("ns2", [("user", ⟨"user", providerValidations provChk, provChk⟩)])]

/-- A hand-compiled simple descriptor. -/
def mkDesc (nspace scheme : String) (method : String) (target : List String)
    (par : Option Bool) : CompiledValidator :=
  { nspace := nspace, scheme := scheme, method := .vStr method,
    params := .vObj [], target := .vArr (target.map Value.vStr), parallel := par }

/-! ## Claim instances and theorems -/

/-- Claim C1: the spec says `all`/`allOf` and `any`/`anyOf` share pass/fail
arithmetic and in particular that `all` and `any` evaluations do not raise an
unknown-method error.  The code disagrees twice: a builder chain ended with
`.all()` compiles `target = '*'` (a string), which the evaluator rejects up
front as a malformed target; and even a hand-made descriptor with an array
target and `method = 'all'` (or `'any'`) falls through the comma-operator
case labels of the final switch into the default branch, whose own message
lists `'all'` and `'any'` as expected values.  This theorem evaluates the
embedded code at those failing inputs. -/
theorem c1_all_and_any_methods_throw :
    ((callAll (createValidator "s" "global")).map (fun st =>
        matchTrueValidator nssMix [0] req0 (compileValidator st))
      = .ok (.error "Received malformed validator! Expected the `target` property to be an array but instead found: (string) *"))
    ∧ ((callAny (createValidator "s" "global")).map (fun st =>
        matchTrueValidator nssMix [0] req0 (compileValidator st))
      = .ok (.error "Received malformed validator! Expected the `target` property to be an array but instead found: (string) *"))
    ∧ (matchTrueValidator nssMix [0] req0 (mkDesc "global" "s" "all" ["isOk"] none)
      = .error "Invalid method type found for validator: \"all\". Expected one of: \"all\", \"any\", \"allOf\", or \"anyOf\".")
    ∧ (matchTrueValidator nssMix [0] req0 (mkDesc "global" "s" "any" ["isOk"] none)
      = .error "Invalid method type found for validator: \"any\". Expected one of: \"all\", \"any\", \"allOf\", or \"anyOf\".") :=
  ⟨rfl, rfl, rfl, rfl⟩

/-- Claim C2 counterexample: in concurrent mode with targets `bad` (rejects
with `boom`) and `good` (fulfils `true`), the claim requires `good`'s
outcome to be collected; the code's single `try` around `Promise.all`
discards every fulfilment, leaving both outcome lists empty.  And with two
rejecting targets, only one rejection (not every one) is recorded. -/
theorem c2_counterexample :
    ((matchTrueValidator nssMix [0, 1] req0
        (mkDesc "global" "s" "anyOf" ["bad", "good"] (some true))).map
      (fun p => (p.1.passedValidations, p.1.failedValidations.length, p.1.thrownErrors))
      = .ok ([], 0, ["boom"]))
    ∧ ((matchTrueValidator nssMix [0, 1] req0
        (mkDesc "global" "s" "anyOf" ["bad", "bad2"] (some true))).map
      (fun p => p.1.thrownErrors)
      = .ok ["boom"]) :=
  ⟨rfl, rfl⟩

/-- Claim C3: in sequential mode a thrown error pushes nothing onto
`testResults`, so later fulfilments shift down, while attribution still uses
`targets[i]`.  With targets `[bad, good]` where `bad` throws and `good`
returns `true`, the sole collected outcome (produced by `good`) is reported
under the qualified name `s:bad` — the validation that actually threw.  This
theorem evaluates the embedded code at that failing input. -/
theorem c3_sequential_misattribution :
    (matchTrueValidator nssMix [0, 1] req0
        (mkDesc "global" "s" "anyOf" ["bad", "good"] none)).map
      (fun p => (p.1.hasPassed, p.1.passedValidations,
        p.1.failedValidations.map (fun f => f.name), p.1.thrownErrors))
    = .ok (false, ["s:bad"], [], ["boom"]) :=
  rfl

/-- Claim C4 counterexample: `parallel()` is a real method of the validator,
so the proxy's finalization guard applies to it exactly as to the terminal
methods; invoking it after `.all()` throws rather than recording the
preference. -/
theorem c4_counterexample :
    (callAll (createValidator "s" "global")).map callParallel =
      .ok (.error "Attempted to call method \"parallel\" of an already finalized validator. Only `.compile()` may be used at this point!") :=
  rfl

/-- Claim C4 (amended): `parallel()` records the parallel-execution
preference only in the Open state; on a finalized builder the proxy throws
the already-finalized error, so it is a finalization-blocked operation like
the terminal methods. -/
theorem c4_parallel_only_in_open_state :
    ∀ b : BuilderState,
      (b.finalized = false →
        callParallel b = .ok { b with execParallel := some true }
        ∧ (compileValidator { b with execParallel := some true }).parallel = some true)
      ∧ (b.finalized = true → callParallel b = .error (finalizedCallMsg "parallel")) := by
  intro b
  constructor
  · intro h
    constructor
    · simp [callParallel, h]
    · rfl
  · intro h
    simp [callParallel, h]

/-- Claim C4 amended witness. -/
theorem c4_parallel_only_in_open_state_witness :
    (callParallel (createValidator "s" "global") =
        .ok { createValidator "s" "global" with execParallel := some true })
    ∧ (callParallel { createValidator "s" "global" with finalized := true } =
        .error (finalizedCallMsg "parallel")) :=
  ⟨((c4_parallel_only_in_open_state (createValidator "s" "global")).1 rfl).1,
   (c4_parallel_only_in_open_state { createValidator "s" "global" with finalized := true }).2 rfl⟩

/-- Claim C5 counterexample: the claim says a literal-wrapper object is a
valid parameter override; the builder's setter rejects every non-string
value — including literal wrappers — with the type-mismatch error. -/
theorem c5_counterexample :
    setParameter (createValidator "s" "global") "p" [.vObj [("value", .vNum 5)]] =
      .error "Attempted to set parameter definition \"p\" to an invalid value! Expected a string, but instead found: (object) [object Object]" :=
  rfl

/-- Claim C9 counterexample: two evaluations of the same descriptor against
the same context, differing only in the order the two rejecting capabilities
settle, record different thrown errors — so the full Result (including
`thrownErrors`) is not outcome-deterministic across repeated calls. -/
theorem c9_counterexample :
    ((matchTrueValidator nssMix [0, 1] req0
        (mkDesc "global" "s" "anyOf" ["bad", "bad2"] (some true))).map
      (fun p => p.1.thrownErrors) = .ok ["boom"])
    ∧ ((matchTrueValidator nssMix [1, 0] req0
        (mkDesc "global" "s" "anyOf" ["bad", "bad2"] (some true))).map
      (fun p => p.1.thrownErrors) = .ok ["boom2"])
    ∧ ("boom" : String) ≠ "boom2" :=
  ⟨rfl, rfl, by decide⟩

/-- Claim C6 counterexample: the export map is attached under
`req.permissions[validator.scheme]` — the bare scheme name.  Two same-named
schemes registered in two different namespaces write the very same key, so
the keys are not namespaced and do collide. -/
theorem c6_counterexample :
    ((matchTrueValidator nssTwin [0] req0 (mkDesc "ns1" "user" "anyOf" ["chk"] none)).map
        (fun p => (p.2.permissions.getD []).map Prod.fst) = .ok ["user"])
    ∧ ((matchTrueValidator nssTwin [0] req0 (mkDesc "ns2" "user" "anyOf" ["chk"] none)).map
        (fun p => (p.2.permissions.getD []).map Prod.fst) = .ok ["user"])
    ∧ ("ns1" : String) ≠ "ns2" :=
  ⟨rfl, rfl, by decide⟩

/-- Claim C10: a builder on which no terminal method was ever called compiles
to a descriptor whose `method` and `target` are both `null`, and evaluating
such a builder (the matcher's compile-function branch) always throws the
malformed-validator error about the `target` property not being an array —
it never returns a Result. -/
theorem c10_unfinalized_builder_evaluation_throws :
    ∀ (s ns : String) (nss : Namespaces) (sched : List Nat) (req : Req),
      compileValidator (createValidator s ns) =
        { nspace := ns, scheme := s, method := .vNull, params := .vObj [],
          target := .vNull, parallel := none }
      ∧ matcherOnBuilder nss sched req (createValidator s ns) =
          .error "Received malformed validator! Expected the `target` property to be an array but instead found: (object) null" :=
  fun _ _ _ _ _ => ⟨rfl, rfl⟩

/-- The parameter setter's behaviour on any non-string value in the Open
state: the type-mismatch error naming the value and its `typeof`. -/
theorem setParameter_nonstring_error (b : BuilderState) (prop : String)
    (v : Value) (hb : b.finalized = false) (hv : ∀ s, v ≠ .vStr s) :
    setParameter b prop [v] = Except.error
      ("Attempted to set parameter definition \"" ++ prop ++
        "\" to an invalid value! Expected a string, but instead found: (" ++
        v.jsTypeof ++ ") " ++ v.jsToString) := by
  cases v with
  | vStr s => exact absurd rfl (hv s)
  | vUndefined => simp [setParameter, hb]
  | vNull => simp [setParameter, hb]
  | vBool x => simp [setParameter, hb]
  | vNum x => simp [setParameter, hb]
  | vObj x => simp [setParameter, hb]
  | vArr x => simp [setParameter, hb]

/-- The parameter setter's behaviour on a badly-prefixed string in the Open
state. -/
theorem setParameter_badstring_error (b : BuilderState) (prop s : String)
    (hb : b.finalized = false)
    (hpre : ¬ strStarts "?" s ∧ ¬ strStarts "$" s ∧ ¬ strStarts "req." s) :
    setParameter b prop [.vStr s] =
      Except.error ("Attempted to set parameter definition \"" ++ prop ++
        "\" to an invalid string value. String-type parameter definitions " ++
        "must start with one of: '?', '$' or 'req.'") := by
  simp [setParameter, hb, hpre]

/-- The parameter setter's behaviour on a well-prefixed string in the Open
state: the definition is stored. -/
theorem setParameter_goodstring_ok (b : BuilderState) (prop s : String)
    (hb : b.finalized = false)
    (hpre : ¬ (¬ strStarts "?" s ∧ ¬ strStarts "$" s ∧ ¬ strStarts "req." s)) :
    setParameter b prop [.vStr s] =
      Except.ok { b with params := aSet b.params prop (.vStr s) } := by
  simp only [setParameter, hb]
  norm_num
  intro h1 h2 h3
  exact absurd ⟨by simp [h1], by simp [h2], by simp [h3]⟩ hpre

/-- Claim C5 (amended): in the Open state (and with the required single
argument) setting a parameter override succeeds exactly when the supplied
value is a string beginning with `?`, `$` or `req.`; every other value —
literal-wrapper objects included, alongside numbers, booleans, null and
undefined — fails with a type-mismatch error naming the offending value and
its type, and on success the definition is stored on the builder, which is
returned for chaining. -/
theorem c5_set_parameter_characterization :
    ∀ (b : BuilderState) (prop : String) (v : Value),
      b.finalized = false →
      ((∃ b', setParameter b prop [v] = .ok b') ↔
        (∃ s, v = .vStr s ∧ (strStarts "?" s ∨ strStarts "$" s ∨ strStarts "req." s)))
      ∧ (∀ b', setParameter b prop [v] = .ok b' →
          b' = { b with params := aSet b.params prop v }) := by
  intro b prop v hb
  by_cases hvs : ∃ s, v = Value.vStr s
  · obtain ⟨s, rfl⟩ := hvs
    by_cases hpre : ¬ strStarts "?" s ∧ ¬ strStarts "$" s ∧ ¬ strStarts "req." s
    · have he := setParameter_badstring_error b prop s hb hpre
      refine ⟨⟨?_, ?_⟩, ?_⟩
      · rintro ⟨b', hb'⟩
        rw [he] at hb'
        exact absurd hb' (by simp)
      · rintro ⟨t, ht, hts⟩
        obtain rfl : s = t := by injection ht
        rcases hts with h | h | h
        · exact absurd h hpre.1
        · exact absurd h hpre.2.1
        · exact absurd h hpre.2.2
      · intro b' hb'
        rw [he] at hb'
        exact absurd hb' (by simp)
    · have he := setParameter_goodstring_ok b prop s hb hpre
      refine ⟨⟨?_, ?_⟩, ?_⟩
      · intro _
        refine ⟨s, rfl, ?_⟩
        by_cases h1 : strStarts "?" s = true
        · exact Or.inl h1
        · by_cases h2 : strStarts "$" s = true
          · exact Or.inr (Or.inl h2)
          · refine Or.inr (Or.inr ?_)
            by_cases h3 : strStarts "req." s = true
            · exact h3
            · exact absurd ⟨by simp [h1], by simp [h2], by simp [h3]⟩ hpre
      · intro _
        exact ⟨_, he⟩
      · intro b' hb'
        rw [he] at hb'
        injection hb' with h
        exact h.symm
  · have hv : ∀ s, v ≠ .vStr s := fun s h => hvs ⟨s, h⟩
    have he := setParameter_nonstring_error b prop v hb hv
    refine ⟨⟨?_, ?_⟩, ?_⟩
    · rintro ⟨b', hb'⟩
      rw [he] at hb'
      exact absurd hb' (by simp)
    · rintro ⟨t, ht, _⟩
      exact absurd ht (hv t)
    · intro b' hb'
      rw [he] at hb'
      exact absurd hb' (by simp)

/-- Claim C5 amended witness. -/
theorem c5_set_parameter_characterization_witness :
    ((createValidator "s" "global").finalized = false)
    ∧ ((∃ b', setParameter (createValidator "s" "global") "p" [.vStr "?tgt"] = .ok b') ↔
        (∃ s, Value.vStr "?tgt" = .vStr s ∧
          (strStarts "?" s ∨ strStarts "$" s ∨ strStarts "req." s))) :=
  ⟨rfl, (c5_set_parameter_characterization (createValidator "s" "global") "p"
    (.vStr "?tgt") rfl).1⟩

/-- Once the accumulator is `undefined`, the source's `reduce` stays at
`undefined` for the remaining segments. -/
theorem foldl_pathStep_undef (ks : List String) :
    ks.foldl pathStep Value.vUndefined = Value.vUndefined := by
  induction ks with
  | nil => rfl
  | cons k ks ih => simpa [pathStep] using ih

/-- The spec's stop-at-first-non-traversable traversal agrees with the
source's `reduce`-threaded traversal. -/
theorem specTraverse_eq_foldl (ks : List String) (acc : Value) :
    specTraverse ks acc = ks.foldl pathStep acc := by
  induction ks generalizing acc with
  | nil => rfl
  | cons k ks ih =>
    cases acc with
    | vObj fs => simpa [specTraverse, pathStep] using ih (jsGet fs k)
    | vArr es => simpa [specTraverse, pathStep] using ih (arrGet es k)
    | vUndefined => simp [specTraverse, pathStep, foldl_pathStep_undef]
    | vNull => simp [specTraverse, pathStep, foldl_pathStep_undef]
    | vBool x => simp [specTraverse, pathStep, foldl_pathStep_undef]
    | vNum x => simp [specTraverse, pathStep, foldl_pathStep_undef]
    | vStr x => simp [specTraverse, pathStep, foldl_pathStep_undef]

/-- Claim C7: on every well-formed definition — a literal wrapper, or a
string in the `?` / `$` / `req.` mini-language — the source's `extract`
agrees with the spec's resolution rules: the wrapped value, a
parameter-capability lookup, a cookie lookup, or a leading-segment-discarded
field traversal that yields an absent value (never an error) on missing or
non-traversable segments. -/
theorem c7_extract_refines_spec :
    ∀ (req : Req) (d : ParamDef), wellFormedDefValue d.value = true →
      extract req d = .ok (resolveSpec req d) := by
  intro req d h
  obtain ⟨nm, value⟩ := d
  cases value with
  | vObj fs =>
    simp only [wellFormedDefValue] at h
    simp [extract, resolveSpec, h]
  | vStr s =>
    simp only [wellFormedDefValue, Bool.or_eq_true] at h
    by_cases h1 : strStarts "?" s = true
    · simp [extract, resolveSpec, h1]
    · by_cases h2 : strStarts "$" s = true
      · simp [extract, resolveSpec, h1, h2]
      · have h3 : strStarts "req." s = true := by
          rcases h with (h | h) | h
          · exact absurd h h1
          · exact absurd h h2
          · exact h
        simp [extract, resolveSpec, h1, h2, h3, specTraverse_eq_foldl,
          List.drop_one]
  | vUndefined => simp [wellFormedDefValue] at h
  | vNull => simp [wellFormedDefValue] at h
  | vBool x => simp [wellFormedDefValue] at h
  | vNum x => simp [wellFormedDefValue] at h
  | vArr x => simp [wellFormedDefValue] at h

/-- A request context with a nested field and a cookie, for the C7 witness. -/
def reqAuth : Req :=
  { paramF := fun k => if k = "tgt" then .vNum 3 else .vUndefined
    cookies := [("sid", .vStr "c1")]
    fields := [("auth", .vObj [("user", .vNum 7)])]
    permissions := none }

/-- Claim C7 witness: a concrete field-path resolution. -/
theorem c7_extract_refines_spec_witness :
    wellFormedDefValue (Value.vStr "req.auth.user") = true
    ∧ extract reqAuth ⟨"self", .vStr "req.auth.user"⟩ =
        .ok (resolveSpec reqAuth ⟨"self", .vStr "req.auth.user"⟩) :=
  ⟨rfl, c7_extract_refines_spec reqAuth ⟨"self", .vStr "req.auth.user"⟩ rfl⟩

/-! ## Reduction helpers for the `Except` monad -/

theorem bindOk {α β : Type} (x : α) (f : α → Except String β) :
    (Except.ok x : Except String α) >>= f = f x := rfl

theorem bindErr {α β : Type} (e : String) (f : α → Except String β) :
    (Except.error e : Except String α) >>= f = Except.error e := rfl

theorem pureEq {α : Type} (x : α) : (pure x : Except String α) = Except.ok x := rfl

theorem bind_ok_iff {α β : Type} {x : Except String α} {f : α → Except String β}
    {b : β} : (x >>= f = Except.ok b) ↔ ∃ a, x = Except.ok a ∧ f a = Except.ok b := by
  cases x with
  | error e => simp [bindErr]
  | ok a => simp [bindOk]

theorem attributeResults_nil (n s : String) (t : List Value) :
    attributeResults n s t [] = ([], []) := rfl

/-- Claim C2 (amended): in concurrent mode, once the evaluation reaches the
launched calls and any of them rejects, the single `try` around
`Promise.all` discards every sibling outcome: exactly one rejection — the
first to settle — is appended to `thrownErrors`, `passedValidations` and
`failedValidations` are left empty, and `hasPassed` is false. -/
theorem c2_concurrent_rejection_discards_outcomes :
    ∀ (nss : Namespaces) (sched : List Nat) (req req1 : Req)
      (v : CompiledValidator) (nsm : List (String × SchemeDef)) (sd : SchemeDef)
      (es : List Value) (ps : List (String × Value)) (tr : List Value)
      (th : List String),
      v.target = .vArr es →
      aGet? nss v.nspace = some nsm →
      aGet? nsm v.scheme = some sd →
      extractParams req v.params sd.provider v.scheme = .ok (ps, req1) →
      ((v.parallel.getD false) || sd.provider.parallelFlag) = true →
      runParallelPhase sd.provider (expandTargets es sd.validations) ps req1 sched
        = .ok (tr, th) →
      th ≠ [] →
      (∃ e, th = [e]) ∧ tr = [] ∧
      matchTrueValidator nss sched req v = .ok (⟨false, [], [], th⟩, req1) := by
  intro nss sched req req1 v nsm sd es ps tr th htarget hns hsch hex hpar hrun hth
  have hana : tr = [] ∧ ∃ e, th = [e] := by
    unfold runParallelPhase at hrun
    rw [bind_ok_iff] at hrun
    obtain ⟨promises, hm, hrun⟩ := hrun
    cases hpa : promiseAll promises sched with
    | ok vs =>
      rw [hpa] at hrun
      simp only [pureEq] at hrun
      injection hrun with hpair
      exact absurd (congrArg Prod.snd hpair).symm hth
    | error e =>
      rw [hpa] at hrun
      simp only [pureEq] at hrun
      injection hrun with hpair
      exact ⟨(congrArg Prod.fst hpair).symm, e, (congrArg Prod.snd hpair).symm⟩
  obtain ⟨htr, e, hthe⟩ := hana
  subst htr
  subst hthe
  refine ⟨⟨e, rfl⟩, rfl, ?_⟩
  simp only [matchTrueValidator, htarget, hns, hsch, hex, hpar, hrun, bindOk,
    pureEq, if_true, attributeResults_nil]
  rfl

/-- The registry entry `register(provMix, 's')` stores. -/
def sdMix : SchemeDef := ⟨"s", providerValidations provMix, provMix⟩

/-- `req0` after a scheme named `s` attached its (empty) frozen exports. -/
def reqPermS : Req := { req0 with permissions := some [("s", ⟨[], true⟩)] }

/-- Claim C2 amended witness: the concrete concurrent run of
`anyOf('bad', 'good')` from `c2_counterexample`, through the general
theorem. -/
theorem c2_concurrent_rejection_discards_outcomes_witness :
    (∃ e, (["boom"] : List String) = [e]) ∧ ([] : List Value) = [] ∧
    matchTrueValidator nssMix [0, 1] req0
        (mkDesc "global" "s" "anyOf" ["bad", "good"] (some true)) =
      .ok (⟨false, [], [], ["boom"]⟩, reqPermS) :=
  c2_concurrent_rejection_discards_outcomes nssMix [0, 1] req0 reqPermS
    (mkDesc "global" "s" "anyOf" ["bad", "good"] (some true))
    [("s", sdMix)] sdMix [.vStr "bad", .vStr "good"] [] [] ["boom"]
    rfl rfl rfl rfl rfl rfl (by simp)

/-- Claim C6 (amended): when the provider has no lifecycle hooks, a
successful parameter resolution's only effect on the request context is
attaching the frozen export map under `req.permissions[schemeName]` — the
key is the bare scheme name (not namespaced) — and every other field of the
context (the parameter capability, the cookie map, the traversable fields)
is untouched. -/
theorem c6_export_attach_effect :
    ∀ (req : Req) (ov : Value) (prov : ProviderObj) (scheme : String)
      (ps : List (String × Value)) (req' : Req),
      prov.beforeHook = none → prov.paramsHook = none →
      extractParams req ov prov scheme = .ok (ps, req') →
      req'.paramF = req.paramF ∧ req'.cookies = req.cookies ∧
      req'.fields = req.fields ∧
      req'.permissions =
        some (aSet ((req.permissions).getD []) scheme ⟨[], true⟩) := by
  intro req ov prov scheme ps req' hb hp h
  simp only [extractParams, hb, hp, bindOk, pureEq] at h
  rw [bind_ok_iff] at h
  obtain ⟨outP, hf, h⟩ := h
  injection h with hpair
  have hreq := congrArg Prod.snd hpair
  simp only at hreq
  subst hreq
  refine ⟨rfl, rfl, rfl, ?_⟩
  cases hperm : req.permissions with
  | none => simp [freezeExports, hperm]
  | some m => simp [freezeExports, hperm]

/-- `req0` after the scheme named `user` attached its (empty) frozen
exports. -/
def reqPermUser : Req := { req0 with permissions := some [("user", ⟨[], true⟩)] }

/-- Claim C6 amended witness: a concrete hook-free resolution. -/
theorem c6_export_attach_effect_witness :
    reqPermUser.paramF = req0.paramF ∧ reqPermUser.cookies = req0.cookies ∧
    reqPermUser.fields = req0.fields ∧
    reqPermUser.permissions =
      some (aSet ((req0.permissions).getD []) "user" ⟨[], true⟩) :=
  c6_export_attach_effect req0 (.vObj []) provChk "user" [] reqPermUser
    rfl rfl rfl

theorem findSome?_mem {α β : Type} {f : α → Option β} {l : List α} {b : β}
    (h : l.findSome? f = some b) : ∃ a ∈ l, f a = some b := by
  induction l with
  | nil => simp [List.findSome?] at h
  | cons x xs ih =>
    rw [List.findSome?_cons] at h
    cases hf : f x with
    | some y =>
      rw [hf] at h
      simp only at h
      exact ⟨x, List.mem_cons_self x xs, by rw [hf]; exact h⟩
    | none =>
      rw [hf] at h
      simp only at h
      obtain ⟨a, ha, hfa⟩ := ih h
      exact ⟨a, List.mem_cons_of_mem x ha, hfa⟩

theorem getD_error_mem :
    ∀ {rs : List (Except String Value)} {i : Nat} {e : String},
      rs.getD i (.ok .vUndefined) = .error e →
      (Except.error e : Except String Value) ∈ rs := by
  intro rs
  induction rs with
  | nil => intro i e h; simp [List.getD] at h
  | cons r rs ih =>
    intro i e h
    cases i with
    | zero =>
      rw [List.getD_cons_zero] at h
      exact h ▸ List.mem_cons_self r rs
    | succ n =>
      rw [List.getD_cons_succ] at h
      exact List.mem_cons_of_mem r (ih h)

theorem seqResults_error_of_mem :
    ∀ {rs : List (Except String Value)} {e : String},
      (Except.error e : Except String Value) ∈ rs →
      ∃ e', seqResults rs = .error e' := by
  intro rs
  induction rs with
  | nil => intro e h; simp at h
  | cons r rs ih =>
    intro e hmem
    cases r with
    | error e0 => exact ⟨e0, rfl⟩
    | ok v =>
      rcases List.mem_cons.mp hmem with h | hmem'
      · cases h
      · obtain ⟨e', he'⟩ := ih hmem'
        exact ⟨e', by simp [seqResults, he']⟩

theorem promiseAll_ok_iff (rs : List (Except String Value)) (sched : List Nat)
    (vs : List Value) :
    promiseAll rs sched = .ok vs ↔ seqResults rs = .ok vs := by
  unfold promiseAll
  cases hf : sched.findSome? (fun i =>
      match rs.getD i (.ok .vUndefined) with
      | .error e => some e
      | .ok _ => none) with
  | none => simp
  | some e =>
    simp only
    constructor
    · intro h; exact absurd h (by simp)
    · intro h
      exfalso
      obtain ⟨i, _, hmatch⟩ := findSome?_mem hf
      have hmem : (Except.error e : Except String Value) ∈ rs := by
        cases hg : rs.getD i (.ok .vUndefined) with
        | ok v => rw [hg] at hmatch; cases hmatch
        | error e0 =>
          rw [hg] at hmatch
          injection hmatch with h0
          exact h0 ▸ getD_error_mem hg
      obtain ⟨e', he'⟩ := seqResults_error_of_mem hmem
      rw [h] at he'
      cases he'

theorem runParallelPhase_cases (prov : ProviderObj) (targets : List Value)
    (ps : List (String × Value)) (req : Req) (s1 s2 : List Nat) :
    runParallelPhase prov targets ps req s1 = runParallelPhase prov targets ps req s2
    ∨ (∃ e1 e2, runParallelPhase prov targets ps req s1 = .ok ([], [e1])
        ∧ runParallelPhase prov targets ps req s2 = .ok ([], [e2])) := by
  unfold runParallelPhase
  cases hb : buildPromises prov ps req targets with
  | error e => left; rfl
  | ok promises =>
    simp only [bindOk]
    cases hp1 : promiseAll promises s1 with
    | ok vs =>
      cases hp2 : promiseAll promises s2 with
      | ok vs2 =>
        left
        have h1 := (promiseAll_ok_iff promises s1 vs).mp hp1
        have h2 := (promiseAll_ok_iff promises s2 vs2).mp hp2
        rw [h1] at h2
        injection h2 with h2
        rw [h2]
      | error e2 =>
        exfalso
        have h1 := (promiseAll_ok_iff promises s1 vs).mp hp1
        have h2 := (promiseAll_ok_iff promises s2 vs).mpr h1
        rw [hp2] at h2
        cases h2
    | error e1 =>
      cases hp2 : promiseAll promises s2 with
      | ok vs2 =>
        exfalso
        have h2 := (promiseAll_ok_iff promises s2 vs2).mp hp2
        have h1 := (promiseAll_ok_iff promises s1 vs2).mpr h2
        rw [hp1] at h1
        cases h1
      | error e2 => right; exact ⟨e1, e2, rfl, rfl⟩

/-- The schedule-invariant projection of an evaluation outcome. -/
def outcomeProj (p : MatchResult × Req) :
    Bool × List String × List FailedValidation × Nat × Req :=
  (p.1.hasPassed, p.1.passedValidations, p.1.failedValidations,
    p.1.thrownErrors.length, p.2)

/-- Claim C9 (amended): for a fixed simple descriptor, fixed context and
deterministic capabilities and hooks, repeated evaluations agree on
`hasPassed`, `passedValidations`, `failedValidations`, the *number* of
recorded thrown errors, and the updated context, whatever the settlement
order of concurrently-launched calls; but (per `c9_counterexample`) the
*content* of `thrownErrors` can differ between runs when two or more
capabilities reject concurrently, so full-Result determinism fails. -/
theorem c9_outcome_schedule_invariance :
    ∀ (nss : Namespaces) (s1 s2 : List Nat) (req : Req) (v : CompiledValidator),
      (matchTrueValidator nss s1 req v).map outcomeProj =
      (matchTrueValidator nss s2 req v).map outcomeProj := by
  intro nss s1 s2 req v
  unfold matchTrueValidator
  cases ht : v.target with
  | vArr es =>
    simp only [bindOk]
    cases hns : aGet? nss v.nspace with
    | none => rfl
    | some nsm =>
      simp only [bindOk]
      cases hsch : aGet? nsm v.scheme with
      | none => rfl
      | some sd =>
        simp only [bindOk]
        cases hex : extractParams req v.params sd.provider v.scheme with
        | error e => simp [bindErr]
        | ok pr =>
          obtain ⟨ps, req1⟩ := pr
          simp only [bindOk]
          cases hpar : (v.parallel.getD false) || sd.provider.parallelFlag with
          | false => rfl
          | true =>
            rcases runParallelPhase_cases sd.provider (expandTargets es sd.validations)
                ps req1 s1 s2 with heq | ⟨e1, e2, h1, h2⟩
            · rw [heq]
            · rw [h1, h2]
              rfl
  | vUndefined => rfl
  | vNull => rfl
  | vBool x => rfl
  | vNum x => rfl
  | vStr x => rfl
  | vObj x => rfl

theorem providerValidations_mem (p : ProviderObj) (k : String) :
    k ∈ providerValidations p ↔
      (k ∈ objKeys p ∧ memberIsFunc p k = true ∧ ¬ k ∈ reservedNames) := by
  unfold providerValidations
  simp [List.mem_filter, and_assoc]
  tauto

theorem goodScheme_providerValidations (p : ProviderObj) (n : String) :
    goodScheme ⟨n, providerValidations p, p⟩ = true := by
  unfold goodScheme
  rw [List.all_eq_true]
  intro v hv
  rw [providerValidations_mem] at hv
  simp only [Bool.and_eq_true, Bool.not_eq_true']
  refine ⟨?_, hv.2.1⟩
  exact Bool.not_eq_true _ ▸ (by simpa using hv.2.2)

theorem all_aSet {α : Type} {fs : List (String × α)} {q : String × α → Bool}
    {key : String} {v : α} (hfs : fs.all q = true) (hv : q (key, v) = true) :
    (aSet fs key v).all q = true := by
  rw [List.all_eq_true] at hfs ⊢
  intro x hx
  rcases mem_aSet hx with h | h
  · exact hfs x h
  · rw [h]; exact hv

theorem all_aRemove {α : Type} {fs : List (String × α)} {q : String × α → Bool}
    {key : String} (hfs : fs.all q = true) : (aRemove fs key).all q = true := by
  rw [List.all_eq_true] at hfs ⊢
  intro x hx
  exact hfs x (List.mem_of_mem_filter hx)

theorem goodNss_lookup {nss : Namespaces} {k : String}
    {ns : List (String × SchemeDef)} (h : goodNss nss = true)
    (hk : aGet? nss k = some ns) :
    ns.all (fun s => goodScheme s.2) = true := by
  induction nss with
  | nil => cases hk
  | cons p rest ih =>
    unfold goodNss at h
    rw [List.all_cons, Bool.and_eq_true] at h
    unfold aGet? at hk
    by_cases hpk : p.1 = k
    · rw [if_pos hpk] at hk
      injection hk with hk
      exact hk ▸ h.1
    · rw [if_neg hpk] at hk
      exact ih h.2 hk

theorem goodNss_register {nss : Namespaces} {p : ProviderObj} {n : String}
    {ns0 : Option String} (h : goodNss nss = true) :
    goodNss (register nss p n ns0).1 = true := by
  have hns : ((aGet? nss (normNS ns0)).getD []).all (fun s => goodScheme s.2) = true := by
    cases hga : aGet? nss (normNS ns0) with
    | none => simp
    | some m => simpa using goodNss_lookup h hga
  have hnss1 : goodNss (aSet nss (normNS ns0) ((aGet? nss (normNS ns0)).getD [])) = true :=
    all_aSet h hns
  unfold register
  by_cases hdup : (aGet? ((aGet? nss (normNS ns0)).getD []) n).isSome = true
  · simp only [hdup, if_true]
    exact hnss1
  · rw [Bool.not_eq_true] at hdup
    simp only [hdup, Bool.false_eq_true, if_false]
    cases hchk : checkParamEntries n (normNS ns0) p.basePar with
    | some e =>
      simp only [hchk]
      exact hnss1
    | none =>
      simp only [hchk]
      exact all_aSet hnss1
        (all_aSet hns (goodScheme_providerValidations p n))

theorem goodNss_unregister {nss : Namespaces} {n : String} {ns0 : Option String}
    (h : goodNss nss = true) : goodNss (unregister nss n ns0).2 = true := by
  unfold unregister
  cases hga : aGet? nss (normNS ns0) with
  | none => simp only [hga]; exact h
  | some ns =>
    simp only [hga]
    exact all_aSet h (all_aRemove (goodNss_lookup h hga))

theorem goodNss_runOps :
    ∀ (ops : List RegOp) (nss : Namespaces), goodNss nss = true →
      goodNss (runOps nss ops) = true := by
  intro ops
  induction ops with
  | nil => intro nss h; exact h
  | cons op ops ih =>
    intro nss h
    cases op with
    | reg p n ns => exact ih _ (goodNss_register h)
    | unreg n ns => exact ih _ (goodNss_unregister h)

theorem register_stores (nss : Namespaces) (p : ProviderObj) (name : String)
    (ns0 : Option String) (h : (register nss p name ns0).2 = none) :
    aGet? ((aGet? (register nss p name ns0).1 (normNS ns0)).getD []) name =
      some ⟨name, providerValidations p, p⟩ := by
  unfold register at h ⊢
  by_cases hdup : (aGet? ((aGet? nss (normNS ns0)).getD []) name).isSome = true
  · simp [hdup] at h
  · rw [Bool.not_eq_true] at hdup
    simp only [hdup, Bool.false_eq_true, if_false] at h ⊢
    cases hchk : checkParamEntries name (normNS ns0) p.basePar with
    | some e => simp [hchk] at h
    | none =>
      simp only [hchk]
      rw [aGet?_aSet_self]
      simp [aGet?_aSet_self]

/-- Claim C8: for every provider accepted by `register`, the stored
validation-name list is exactly the provider's members that are callable and
not reserved lifecycle names (`before`, `after`, `params`, `error`); and in
every store reachable from the initial one by any sequence of
register/unregister operations, every stored scheme's validation list is
free of reserved names and of non-callable members. -/
theorem c8_validation_names :
    (∀ (nss : Namespaces) (p : ProviderObj) (name : String) (ns0 : Option String),
      (register nss p name ns0).2 = none →
      aGet? ((aGet? (register nss p name ns0).1 (normNS ns0)).getD []) name =
        some ⟨name, providerValidations p, p⟩)
    ∧ (∀ (p : ProviderObj) (k : String),
        k ∈ providerValidations p ↔
          (k ∈ objKeys p ∧ memberIsFunc p k = true ∧ ¬ k ∈ reservedNames))
    ∧ (∀ ops : List RegOp, goodNss (runOps initialNamespaces ops) = true) :=
  ⟨register_stores, providerValidations_mem,
   fun ops => goodNss_runOps ops initialNamespaces rfl⟩

/-- The reserved-heavy provider from the conformance tests. -/
def provReserved : ProviderObj :=
  ⟨[("before", .func (mkCap fun _ _ => .ok .vUndefined)),
    ("after", .func (mkCap fun _ _ => .ok .vUndefined)),
    ("params", .func (mkCap fun _ _ => .ok .vUndefined)),
    ("error", .func (mkCap fun _ _ => .ok .vUndefined)),
    ("notReserved", .func (mkCap fun _ _ => .ok .vUndefined)),
    ("potet", .func (mkCap fun _ _ => .ok .vUndefined))]⟩

/-- Claim C8 witness: registering the reserved-heavy provider. -/
theorem c8_validation_names_witness :
    (aGet? ((aGet? (register initialNamespaces provReserved "mostlyReserved" none).1
        (normNS none)).getD []) "mostlyReserved" =
      some ⟨"mostlyReserved", providerValidations provReserved, provReserved⟩)
    ∧ ("notReserved" ∈ providerValidations provReserved ↔
        ("notReserved" ∈ objKeys provReserved ∧
          memberIsFunc provReserved "notReserved" = true ∧
          ¬ "notReserved" ∈ reservedNames))
    ∧ goodNss (runOps initialNamespaces
        [RegOp.reg provReserved "mostlyReserved" none,
         RegOp.unreg "mostlyReserved" none]) = true :=
  ⟨c8_validation_names.1 initialNamespaces provReserved "mostlyReserved" none rfl,
   c8_validation_names.2.1 provReserved "notReserved",
   c8_validation_names.2.2 [RegOp.reg provReserved "mostlyReserved" none,
     RegOp.unreg "mostlyReserved" none]⟩
